import Mathlib

/-!
Verification of the CollabLearn desktop agent execution core.

This file gives a shallow embedding, in Lean, of the parts of the
program that the checked claims are about:

* the text utilities `stripAnsi` / `truncateText` / `safeToolText` of the
  Copilot SDK adapter;
* the glob-to-regex translation of the `find_files` sandbox tool,
  together with a small matcher for the regular-expression dialect the
  translation produces (`new RegExp` with `^...$` anchoring);
* the blocker-pattern scanner and the sequential task loop of
  `PhaseOrchestrator` (`detectBlocker`, `extractBlockerReason`,
  `executeTask`, `executePhase`, `stopAfterCurrentTask`);
* the per-execution output channel of `AgentManager.executeTask`
  (one-shot child-process path and SDK session path), its status
  registry, and `stopExecution`;
* the control-flow skeleton shared by the session sandbox tool handlers.

Text is modelled as `List Char` (JavaScript strings, one element per
UTF-16 unit; every string the claims touch is within the BMP so the
identification is exact).  Wall-clock values (timestamps, durations of
executed tasks) are opaque parameters.  Asynchronous effects are
modelled by explicit event sequences: the environment supplies the
sequence of events an external process or SDK session produces, and the
embedding computes the sequence of events the program emits in response.
-/

namespace CollabLearn

/-! ## JavaScript string primitives -/

/-- Whitespace recognised by JavaScript `String.prototype.trim` (the
characters that can occur in the text this program handles). -/
def jsWhite (c : Char) : Bool :=
  c == ' ' || c == '\t' || c == '\n' || c == '\r' || c == '\x0b' || c == '\x0c'

/-- JavaScript `String.prototype.trim`: drop whitespace at both ends. -/
def jsTrim (s : List Char) : List Char :=
  ((s.dropWhile jsWhite).reverse.dropWhile jsWhite).reverse

/-- JavaScript `s.slice(-n)`: the last `n` characters, with the JS quirk
that `slice(-0)` is `slice(0)`, the whole string. -/
def jsSliceNeg (l : List Char) (n : Nat) : List Char :=
  if n = 0 then l else l.drop (l.length - n)

/-- Case folding used for `/i` regular-expression flags (ASCII letters,
the only letters occurring in the fixed patterns). -/
def lcase (c : Char) : Char := c.toLower

/-- Case-insensitive prefix test: does `pat` match at the start of `s`? -/
def ciPrefix : List Char → List Char → Bool
  | [], _ => true
  | _ :: _, [] => false
  | p :: ps, c :: cs => (lcase c == lcase p) && ciPrefix ps cs

/-- Case-insensitive substring test, the semantics of
`/pat/i.test(s)` for a pattern of plain characters. -/
def ciContains (pat : List Char) : List Char → Bool
  | [] => ciPrefix pat []
  | c :: cs => ciPrefix pat (c :: cs) || ciContains pat cs

/-- Characters matched by `.` in a JavaScript regular expression
without the `s` flag: everything except line terminators. -/
def jsDotChar (c : Char) : Bool :=
  !(c == '\n' || c == '\r' || c == Char.ofNat 0x2028 || c == Char.ofNat 0x2029)

/-- Matcher for `.*B` at the start of the string (case-insensitive):
some non-line-terminator run followed by `b`. -/
def ciThen (b : List Char) : List Char → Bool
  | [] => ciPrefix b []
  | c :: cs => ciPrefix b (c :: cs) || (jsDotChar c && ciThen b cs)

/-- Matcher for the unanchored pattern `A.*B` with the `i` flag, the
shape of the two-word blocker patterns: `a` somewhere in the string,
then any non-line-terminator run, then `b`. -/
def ciSeq (a b : List Char) : List Char → Bool
  | [] => ciPrefix a [] && ciThen b []
  | c :: cs => (ciPrefix a (c :: cs) && ciThen b ((c :: cs).drop a.length)) || ciSeq a b cs

/-! ## Text cleanup of the SDK adapter

Source: `stripAnsi`, `truncateText`, `safeToolText` at the top of
`CopilotSdkAdapter`. -/

/-- Consume the tail of an ANSI colour sequence after `ESC [`:
digits and semicolons up to the terminating `m` (the shape matched by
the regex `\x1b\[[0-9;]*m` of `stripAnsi`).  Returns the rest of the
string after the `m`, or `none` when the shape does not match. -/
def ansiRest : List Char → Option (List Char)
  | [] => none
  | c :: cs =>
    if c = 'm' then some cs
    else if c.isDigit || c = ';' then ansiRest cs
    else none

theorem ansiRest_length : ∀ l r, ansiRest l = some r → r.length < l.length := by
  intro l
  induction l with
  | nil => intro r h; simp [ansiRest] at h
  | cons c cs ih =>
    intro r h
    simp only [ansiRest] at h
    by_cases hm : c = 'm'
    · simp [hm] at h
      simp [← h]
    · by_cases hd : c.isDigit || c = ';'
      · simp [hm, hd] at h
        exact Nat.lt_succ_of_lt (ih r h)
      · simp [hm, hd] at h

/-- Test whether the string starts with a full ANSI colour sequence
`\x1b\[[0-9;]*m`; if so, return the remainder after it. -/
def ansiMatch : List Char → Option (List Char)
  | '\x1b' :: '[' :: rest => ansiRest rest
  | _ => none

theorem ansiMatch_length : ∀ s r, ansiMatch s = some r → r.length < s.length := by
  intro s r h
  unfold ansiMatch at h
  split at h
  · rename_i rest
    have := ansiRest_length _ _ h
    simp only [List.length_cons]
    omega
  · exact absurd h (by simp)

/-- Embedding of `stripAnsi`: remove every occurrence of
`\x1b\[[0-9;]*m` by a leftmost non-overlapping scan, the semantics of
`String.prototype.replace` with a global regex. -/
def stripAnsi (s : List Char) : List Char :=
  match h2 : ansiMatch s with
  | some rest2 => stripAnsi rest2
  | none =>
    match s with
    | [] => []
    | c :: cs => c :: stripAnsi cs
termination_by s.length
decreasing_by
  · exact ansiMatch_length _ _ h2
  · simp

theorem ansiMatch_cons_ne {c : Char} (cs : List Char) (hc : c ≠ '\x1b') :
    ansiMatch (c :: cs) = none := by
  unfold ansiMatch
  split
  · rename_i heq
    injection heq with h1 _
    exact absurd h1 hc
  · rfl

theorem stripAnsi_cons_ne {c : Char} (cs : List Char) (hc : c ≠ '\x1b') :
    stripAnsi (c :: cs) = c :: stripAnsi cs := by
  rw [stripAnsi]
  split
  · rename_i r h2
    rw [ansiMatch_cons_ne cs hc] at h2
    exact absurd h2 (by simp)
  · rfl

theorem stripAnsi_eq_self {s : List Char} (h : '\x1b' ∉ s) : stripAnsi s = s := by
  induction s with
  | nil =>
    rw [stripAnsi]
    split
    · rename_i r h2
      exact absurd h2 (by simp [ansiMatch])
    · rfl
  | cons c cs ih =>
    have hc : c ≠ '\x1b' := fun hh => h (hh ▸ List.mem_cons_self c cs)
    have hcs : '\x1b' ∉ cs := fun hh => h (List.mem_cons_of_mem c hh)
    rw [stripAnsi_cons_ne cs hc, ih hcs]

/-- Marker inserted by `truncateText` between the preserved head and
tail, reporting how many characters were dropped. -/
def truncMarker (k : Int) : List Char :=
  "\n...[truncated ".toList ++ (toString k).toList ++ " chars]...\n".toList

/-- Embedding of `truncateText`: head/tail-preserving truncation.  The
head is the first `⌊maxChars/2⌋` characters, the tail the last
`⌊maxChars/2⌋` (via `slice(-n)`), with the drop-count marker between. -/
def truncateText (input : List Char) (maxChars : Nat) : List Char :=
  if input.length ≤ maxChars then input
  else
    let head := input.take (maxChars / 2)
    let tail := jsSliceNeg input (maxChars / 2)
    head ++ truncMarker ((input.length : Int) - head.length - tail.length) ++ tail

/-- Embedding of `safeToolText`: ANSI-strip, then truncate. -/
def safeToolText (input : List Char) (maxChars : Nat := 20000) : List Char :=
  truncateText (stripAnsi input) maxChars

/-- C9: for every input of 50000 characters, truncation with cap 20000
produces exactly head ++ marker ++ tail, whose length is at most
20000 plus the marker length, whose first 10000 characters are the first
10000 of the input, and whose last 10000 characters are the last 10000
of the input; `safeToolText` coincides when the input has no ESC. -/
theorem truncateText_cap20000 (s : List Char) (h : s.length = 50000) :
    truncateText s 20000 = s.take 10000 ++ truncMarker 30000 ++ s.drop 40000 ∧
    (truncateText s 20000).length ≤ 20000 + (truncMarker 30000).length ∧
    (truncateText s 20000).take 10000 = s.take 10000 ∧
    (truncateText s 20000).drop ((truncateText s 20000).length - 10000) = s.drop 40000 ∧
    ('\x1b' ∉ s → safeToolText s 20000 = truncateText s 20000) := by
  have hlen_take : (s.take 10000).length = 10000 := by
    simp [List.length_take, h]
  have hlen_drop : (s.drop 40000).length = 10000 := by
    rw [List.length_drop, h]
  have hmain : truncateText s 20000 = s.take 10000 ++ truncMarker 30000 ++ s.drop 40000 := by
    unfold truncateText jsSliceNeg
    rw [if_neg (by omega)]
    simp only [h]
    rw [if_neg (by omega)]
    have h1 : (50000 : Nat) - 20000 / 2 = 40000 := by norm_num
    have h2 : (20000 : Nat) / 2 = 10000 := by norm_num
    rw [h2, h1]
    have harg : ((50000 : Nat) : Int) - ((s.take 10000).length : Int)
        - ((s.drop 40000).length : Int) = 30000 := by
      rw [hlen_take, hlen_drop]; norm_num
    rw [harg]
  refine ⟨hmain, ?_, ?_, ?_, ?_⟩
  · rw [hmain]
    simp only [List.length_append, hlen_take, hlen_drop]
    omega
  · rw [hmain, List.append_assoc]
    exact List.take_left' hlen_take
  · rw [hmain]
    have hL : (s.take 10000 ++ truncMarker 30000 ++ s.drop 40000).length
        = 10000 + (truncMarker 30000).length + 10000 := by
      simp [List.length_append, hlen_take, hlen_drop]; omega
    rw [hL]
    have hpre : (s.take 10000 ++ truncMarker 30000).length
        = 10000 + (truncMarker 30000).length + 10000 - 10000 := by
      simp [List.length_append, hlen_take]
    rw [← hpre, List.drop_left]
  · intro hesc
    unfold safeToolText
    rw [stripAnsi_eq_self hesc]

/-- C9 witness: the theorem applied at 50000 copies of the letter a. -/
theorem truncateText_cap20000_witness :
    (List.replicate 50000 'a').length = 50000 ∧
    ((truncateText (List.replicate 50000 'a') 20000).take 10000
      = (List.replicate 50000 'a').take 10000) :=
  ⟨List.length_replicate 50000 'a',
   (truncateText_cap20000 (List.replicate 50000 'a')
     (List.length_replicate 50000 'a')).2.2.1⟩

/-! ## The find_files glob translation

Source: the `find_files` handler of `defineTools` in `CopilotSdkAdapter`.
The handler turns the glob into a regular expression by five successive
global replacements and then tests `new RegExp(` ++ "`^...$`" ++ `)`
against each relative file path.  The replacements are embedded exactly
as written, and a matcher is given for the regular-expression dialect
the translation can produce (literals, escaped literals, `.`,
negated character classes, postfix `*`, full-string anchoring). -/

/-- Scanner for `replaceAllSub`, fuelled by the string length so that
it is structurally recursive (each step consumes at least one
character, so the fuel never runs out when it starts at the length). -/
def replaceAllSubAux (pat repl : List Char) : Nat → List Char → List Char
  | _, [] => []
  | 0, s => s
  | fuel + 1, c :: cs =>
    if pat.isPrefixOf (c :: cs) && !pat.isEmpty then
      repl ++ replaceAllSubAux pat repl fuel ((c :: cs).drop pat.length)
    else
      c :: replaceAllSubAux pat repl fuel cs

/-- Global replacement of a fixed substring, the semantics of
`String.prototype.replace` with a global regex over a literal pattern:
leftmost match, non-overlapping, replacements are not rescanned. -/
def replaceAllSub (pat repl s : List Char) : List Char :=
  replaceAllSubAux pat repl s.length s

/-- Element of the produced regular expressions: a literal character, a
dot, or a (possibly negated) character class of plain characters. -/
inductive RElem : Type
  | lit (c : Char)
  | dot
  | cls (neg : Bool) (cs : List Char)
deriving DecidableEq

/-- Term of the produced regular expressions: an element, or an element
under a postfix Kleene star. -/
inductive RTerm : Type
  | once (e : RElem)
  | star (e : RElem)
deriving DecidableEq

/-- Parse a single element at the head of a regex string:
an escape, a character class, a dot, or a plain literal. -/
def parseElem : List Char → Option (RElem × List Char)
  | [] => none
  | '\\' :: c :: rest => some (RElem.lit c, rest)
  | '\\' :: [] => none
  | '[' :: '^' :: rest => parseClsAux true [] rest
  | '[' :: rest => parseClsAux false [] rest
  | '.' :: rest => some (RElem.dot, rest)
  | '*' :: _ => none
  | c :: rest => some (RElem.lit c, rest)
where
  parseClsAux (neg : Bool) (acc : List Char) : List Char → Option (RElem × List Char)
    | [] => none
    | ']' :: rest => some (RElem.cls neg acc.reverse, rest)
    | c :: rest => parseClsAux neg (c :: acc) rest

/-- Parse a whole regex string into a term list, fuelled by the string
length (each element consumes at least one character). -/
def parseTerms : Nat → List Char → Option (List RTerm)
  | _, [] => some []
  | 0, _ :: _ => none
  | fuel + 1, s => do
    let (e, rest) ← parseElem s
    match rest with
    | '*' :: rest2 => do
      let ts ← parseTerms fuel rest2
      pure (RTerm.star e :: ts)
    | _ => do
      let ts ← parseTerms fuel rest
      pure (RTerm.once e :: ts)

/-- Single-character semantics of a regex element. -/
def matchElem : RElem → Char → Bool
  | RElem.lit c, x => x == c
  | RElem.dot, x => jsDotChar x
  | RElem.cls neg cs, x => if neg then !(cs.contains x) else cs.contains x

/-- Backtracking matcher core, fuelled by term-count plus string
length (every recursive call strictly decreases that sum, so the fuel
never runs out when it starts there). -/
def rmatchAux : Nat → List RTerm → List Char → Bool
  | _, [], [] => true
  | _, [], _ :: _ => false
  | _, RTerm.once _ :: _, [] => false
  | 0, _, _ => false
  | fuel + 1, RTerm.once e :: ts, c :: cs => matchElem e c && rmatchAux fuel ts cs
  | fuel + 1, RTerm.star _ :: ts, [] => rmatchAux fuel ts []
  | fuel + 1, RTerm.star e :: ts, c :: cs =>
    rmatchAux fuel ts (c :: cs) || (matchElem e c && rmatchAux fuel (RTerm.star e :: ts) cs)

/-- Full-string regex matching with backtracking, the semantics of
`new RegExp(` ++ "`^p$`" ++ `).test(s)` for the dialect above. -/
def rmatch (ts : List RTerm) (s : List Char) : Bool :=
  rmatchAux (ts.length + s.length) ts s

/-- The five-step glob-to-regex translation of the `find_files`
handler, exactly in source order: `**` to a placeholder, `*` to
`[^/]*`, `?` to `[^/]`, the placeholder to `.*`, and finally every
dot to an escaped dot. -/
def globToRegexPattern (pattern : List Char) : List Char :=
  replaceAllSub ".".toList "\\.".toList
    (replaceAllSub "\x7b\x7bGLOBSTAR\x7d\x7d".toList ".*".toList
      (replaceAllSub "?".toList "[^/]".toList
        (replaceAllSub "*".toList "[^/]*".toList
          (replaceAllSub "**".toList "\x7b\x7bGLOBSTAR\x7d\x7d".toList pattern))))

/-- Whether the `find_files` handler accepts the relative path for the
given glob: build the regex text, parse it, and run the anchored match
(`none` models a regex-syntax failure, which the handler would surface
as a thrown-and-caught error). -/
def findFilesGlobTest (pattern relPath : List Char) : Option Bool :=
  let rp := globToRegexPattern pattern
  (parseTerms rp.length rp).map (fun ts => rmatch ts relPath)

/-- C8: the claim asserts the translated glob `src/**/*.ts` matches
`src/a/b.ts` and `src/a.ts` and rejects `src/a/b.tsx`.  The translation
escapes dots as its final step, which also escapes the dot of the `.*`
just substituted for the globstar: the produced regex is
`src/\.*/[^/]*\.ts` (literal-dot run), so all three paths are
rejected, while a path with an empty or dots-only middle segment such
as `src//x.ts` is accepted.  This evaluates the embedded handler code
at those inputs. -/
theorem findFilesGlob_translation_eval :
    globToRegexPattern "src/**/*.ts".toList = "src/\\.*/[^/]*\\.ts".toList ∧
    findFilesGlobTest "src/**/*.ts".toList "src/a/b.ts".toList = some false ∧
    findFilesGlobTest "src/**/*.ts".toList "src/a.ts".toList = some false ∧
    findFilesGlobTest "src/**/*.ts".toList "src/a/b.tsx".toList = some false ∧
    findFilesGlobTest "src/**/*.ts".toList "src//x.ts".toList = some true := by
  decide

/-! ## PhaseOrchestrator: blocker detection and the sequential task loop

Source: `BLOCKER_PATTERNS`, `detectBlocker`, `extractBlockerReason`,
`executeTask`, `executePhase`, `stopAfterCurrentTask` in
`PhaseOrchestrator`.  A task execution is modelled by the sequence of
output chunks its stream delivers (`AgentOutput.data` of each event
before the terminal notification) together with how the stream ends:
`errored = none` for a normal rxjs completion, `errored = some msg`
for an error notification carrying that message.  The moment at which
the user calls `stopAfterCurrentTask` is modelled by `stopDuring`, the
number of further tasks that start executing before the flag is set
(so `some 0` means the flag is set while the first executed task is in
flight). -/

/-- The no-entry-sign emoji matched by the second blocker pattern. -/
def noEntrySign : Char := Char.ofNat 0x1F6AB

/-- The fixed ordered `BLOCKER_PATTERNS` list: `/BLOCKED:/i`, the
no-entry emoji, `/cannot proceed/i`, `/missing.*required/i`,
`/waiting for.*input/i`, `/need.*clarification/i`,
`/unable to continue/i`, `/blocked by/i`. -/
def blockerPatterns : List (List Char → Bool) :=
  [ ciContains "BLOCKED:".toList,
    fun s => s.contains noEntrySign,
    ciContains "cannot proceed".toList,
    fun s => ciSeq "missing".toList "required".toList s,
    fun s => ciSeq "waiting for".toList "input".toList s,
    fun s => ciSeq "need".toList "clarification".toList s,
    ciContains "unable to continue".toList,
    ciContains "blocked by".toList ]

/-- Embedding of `detectBlocker`: some pattern matches the chunk. -/
def detectBlocker (s : List Char) : Bool :=
  blockerPatterns.any (fun p => p s)

/-- Scan lines for the first one matching some blocker pattern,
returning it trimmed and capped at 200 characters, with the source
fallback text when no line matches. -/
def firstBlockerLine : List (List Char) → List Char
  | [] => "Task reported a blocker".toList
  | l :: rest => if detectBlocker l then (jsTrim l).take 200 else firstBlockerLine rest

/-- Embedding of `extractBlockerReason`: split the chunk on newlines
and take the first matching line. -/
def extractBlockerReason (s : List Char) : List Char :=
  firstBlockerLine (s.splitOn '\n')

/-- Terminal per-task status of `TaskResult`. -/
inductive TStatus : Type
  | completed
  | failed
  | blocked
  | skipped
deriving DecidableEq

/-- External task status (`Task.status` of the task store). -/
inductive ExtStatus : Type
  | pending
  | in_progress
  | completed
  | blocked
deriving DecidableEq

/-- One task execution as seen by the orchestrator subscription: the
`data` fields of the delivered events and the way the stream ends. -/
structure TaskStream : Type where
  chunks : List (List Char)
  errored : Option (List Char)
deriving DecidableEq

/-- A task together with its (environment-determined) execution:
external status before the phase, delivered stream, and the opaque
wall-clock duration the execution takes. -/
structure TaskSpecM : Type where
  id : Nat
  extStatus : ExtStatus
  stream : TaskStream
  dur : Nat
deriving DecidableEq

/-- Embedding of `TaskResult` (the `output` accumulator is kept as the
raw chunk list; its concatenation is not needed by any claim). -/
structure TaskResultM : Type where
  taskId : Nat
  status : TStatus
  blockerReason : Option (List Char)
  duration : Nat
deriving DecidableEq

/-- The `!blockerDetected && detectBlocker(chunk)` scan of the `next`
callback: the first chunk matching a pattern fixes the reason; later
chunks cannot override it. -/
def scanBlocker : List (List Char) → Option (List Char)
  | [] => none
  | c :: cs => if detectBlocker c then some (extractBlockerReason c) else scanBlocker cs

/-- Embedding of `PhaseOrchestrator.executeTask`: on a stream error the
task resolves `failed` (even when a blocker was detected); on normal
completion it resolves `blocked` with the scanned reason, or
`completed`. -/
def runTaskM (t : TaskSpecM) : TaskResultM :=
  match t.stream.errored with
  | some _ => ⟨t.id, TStatus.failed, none, t.dur⟩
  | none =>
    match scanBlocker t.stream.chunks with
    | some r => ⟨t.id, TStatus.blocked, some r, t.dur⟩
    | none => ⟨t.id, TStatus.completed, none, t.dur⟩

/-- Result recorded for a task skipped after a graceful stop:
status `skipped`, zero duration. -/
def skipResultM (t : TaskSpecM) : TaskResultM :=
  ⟨t.id, TStatus.skipped, none, 0⟩

/-- The main loop of `executePhase` over the filtered pending tasks.
`stop` is the `shouldStop` flag; `stopDuring = some k` means the user
issues `stopAfterCurrentTask` while the (k+1)-st executed task is in
flight.  Returns the accumulated results and the final flag value
(which `executePhase` reports as `stoppedByUser`). -/
def phaseLoop (tasks : List TaskSpecM) (stop : Bool) (stopDuring : Option Nat) :
    List TaskResultM × Bool :=
  match tasks with
  | [] => ([], stop)
  | t :: rest =>
    if stop then
      let p := phaseLoop rest true stopDuring
      (skipResultM t :: p.1, p.2)
    else
      let r := runTaskM t
      let stop2 := stop || stopDuring == some 0
      if r.status = TStatus.blocked then
        ([r], stop2)
      else
        let p := phaseLoop rest stop2 (stopDuring.map (fun n => n - 1))
        (r :: p.1, p.2)

/-- Embedding of `PhaseResult` (phase id and total wall-clock duration
are opaque pass-throughs and are omitted). -/
structure PhaseResultM : Type where
  tasksCompleted : Nat
  tasksFailed : Nat
  tasksBlocked : Nat
  tasksSkipped : Nat
  results : List TaskResultM
  stoppedByUser : Bool
  blockerReason : Option (List Char)
deriving DecidableEq

/-- The pending filter of `executePhase`. -/
def isPendingLike (e : ExtStatus) : Bool :=
  e == ExtStatus.pending || e == ExtStatus.in_progress

/-- Embedding of `PhaseOrchestrator.executePhase`: filter the fetched
tasks to pending/in-progress, return the empty result when none
remain, otherwise run the sequential loop and aggregate. -/
def executePhaseM (allTasks : List TaskSpecM) (stopDuring : Option Nat) : PhaseResultM :=
  let pendingTasks := allTasks.filter (fun t => isPendingLike t.extStatus)
  if pendingTasks.isEmpty then
    ⟨0, 0, 0, 0, [], false, none⟩
  else
    let p := phaseLoop pendingTasks false stopDuring
    ⟨p.1.countP (fun r => r.status == TStatus.completed),
     p.1.countP (fun r => r.status == TStatus.failed),
     p.1.countP (fun r => r.status == TStatus.blocked),
     p.1.countP (fun r => r.status == TStatus.skipped),
     p.1,
     p.2,
     (p.1.find? (fun r => r.status == TStatus.blocked)).bind (fun r => r.blockerReason)⟩

theorem firstBlockerLine_length : ∀ ls, (firstBlockerLine ls).length ≤ 200 := by
  intro ls
  induction ls with
  | nil => decide
  | cons l rest ih =>
    cases h : detectBlocker l with
    | true =>
      simp only [firstBlockerLine, h, if_true]
      simp [List.length_take]
    | false =>
      simpa [firstBlockerLine, h] using ih

theorem firstBlockerLine_spec :
    ∀ (lpre : List (List Char)) (l : List Char) (lpost : List (List Char)),
      (∀ x ∈ lpre, detectBlocker x = false) → detectBlocker l = true →
      firstBlockerLine (lpre ++ l :: lpost) = (jsTrim l).take 200 := by
  intro lpre
  induction lpre with
  | nil =>
    intro l lpost _ hl
    simp [firstBlockerLine, hl]
  | cons x xs ih =>
    intro l lpost hpre hl
    have hx : detectBlocker x = false := hpre x (List.mem_cons_self x xs)
    have hxs : ∀ y ∈ xs, detectBlocker y = false :=
      fun y hy => hpre y (List.mem_cons_of_mem x hy)
    simp [firstBlockerLine, hx, ih l lpost hxs hl]

theorem scanBlocker_first :
    ∀ (pre : List (List Char)) (c : List Char) (post : List (List Char)),
      (∀ p ∈ pre, detectBlocker p = false) → detectBlocker c = true →
      scanBlocker (pre ++ c :: post) = some (extractBlockerReason c) := by
  intro pre
  induction pre with
  | nil =>
    intro c post _ hc
    simp [scanBlocker, hc]
  | cons x xs ih =>
    intro c post hpre hc
    have hx : detectBlocker x = false := hpre x (List.mem_cons_self x xs)
    have hxs : ∀ y ∈ xs, detectBlocker y = false :=
      fun y hy => hpre y (List.mem_cons_of_mem x hy)
    simp [scanBlocker, hx, ih c post hxs hc]

theorem phaseLoop_skip_all :
    ∀ (tasks : List TaskSpecM) (sd : Option Nat),
      phaseLoop tasks true sd = (tasks.map skipResultM, true) := by
  intro tasks sd
  induction tasks with
  | nil => rfl
  | cons t rest ih => simp [phaseLoop, ih]

/-- C2 (amended): for a task whose stream completes normally and whose
chunk list has a first pattern-matching chunk `c`, the result is
`blocked`; its reason is extracted from that first matching chunk (not
overridden by later chunks); the reason is the first matching line of
`c`, trimmed and capped at 200 characters; and the phase loop stops
right after this task, before executing any following task.  (The
amendment restricts the claim to streams that end with `complete`: on a
stream error the source resolves the task `failed` even when a blocker
pattern matched, see the counterexample.) -/
theorem task_blocker_first_match (t : TaskSpecM) (pre : List (List Char))
    (c : List Char) (post : List (List Char)) (rest : List TaskSpecM)
    (hok : t.stream.errored = none)
    (hchunks : t.stream.chunks = pre ++ c :: post)
    (hpre : ∀ p ∈ pre, detectBlocker p = false)
    (hc : detectBlocker c = true) :
    (runTaskM t).status = TStatus.blocked ∧
    (runTaskM t).blockerReason = some (extractBlockerReason c) ∧
    (∀ (lpre : List (List Char)) (l : List Char) (lpost : List (List Char)),
      c.splitOn '\n' = lpre ++ l :: lpost →
      (∀ x ∈ lpre, detectBlocker x = false) → detectBlocker l = true →
      extractBlockerReason c = (jsTrim l).take 200) ∧
    (extractBlockerReason c).length ≤ 200 ∧
    phaseLoop (t :: rest) false none = ([runTaskM t], false) := by
  have hrun : runTaskM t = ⟨t.id, TStatus.blocked, some (extractBlockerReason c), t.dur⟩ := by
    simp [runTaskM, hok, hchunks, scanBlocker_first pre c post hpre hc]
  refine ⟨by rw [hrun], by rw [hrun], ?_, ?_, ?_⟩
  · intro lpre l lpost hsplit hlpre hl
    unfold extractBlockerReason
    rw [hsplit]
    exact firstBlockerLine_spec lpre l lpost hlpre hl
  · exact firstBlockerLine_length _
  · simp [phaseLoop, hrun]

/-- Concrete task whose stream is the chunk sequence of the blocker
precedence example in the specification. -/
def sampleBlocked : TaskSpecM :=
  ⟨2, ExtStatus.pending,
   ⟨["ok".toList, "BLOCKED: missing API key".toList, "more".toList], none⟩, 7⟩

/-- Concrete task with a clean single-chunk stream. -/
def sampleClean : TaskSpecM :=
  ⟨1, ExtStatus.pending, ⟨["ok".toList], none⟩, 5⟩

/-- Concrete pending task that the blocked phase never reaches. -/
def samplePending : TaskSpecM :=
  ⟨3, ExtStatus.pending, ⟨["fine".toList], none⟩, 2⟩

/-- C2 witness: the blocker-precedence chunks of the specification
example, instantiating the theorem. -/
theorem task_blocker_first_match_witness :
    (sampleBlocked.stream.errored = none ∧
     sampleBlocked.stream.chunks
       = ["ok".toList] ++ "BLOCKED: missing API key".toList :: ["more".toList] ∧
     (∀ p ∈ ["ok".toList], detectBlocker p = false) ∧
     detectBlocker "BLOCKED: missing API key".toList = true) ∧
    ((runTaskM sampleBlocked).status = TStatus.blocked ∧
     (runTaskM sampleBlocked).blockerReason
       = some (extractBlockerReason "BLOCKED: missing API key".toList)) :=
  ⟨⟨rfl, rfl, by decide, by decide⟩,
   (task_blocker_first_match sampleBlocked ["ok".toList]
      "BLOCKED: missing API key".toList ["more".toList] [samplePending]
      rfl rfl (by decide) (by decide)).1,
   (task_blocker_first_match sampleBlocked ["ok".toList]
      "BLOCKED: missing API key".toList ["more".toList] [samplePending]
      rfl rfl (by decide) (by decide)).2.1⟩

/-- Concrete task whose chunks match a blocker pattern but whose stream
ends with an error notification. -/
def sampleBlockedErrored : TaskSpecM :=
  ⟨9, ExtStatus.pending,
   ⟨["BLOCKED: missing API key".toList], some "stream failure".toList⟩, 3⟩

/-- C2 counterexample: a task run by the phase loop whose output chunk
matches the `BLOCKED:` pattern but whose stream errors is resolved
`failed`, not `blocked`, refuting the claim as stated. -/
theorem task_blocker_error_override :
    detectBlocker "BLOCKED: missing API key".toList = true ∧
    (executePhaseM [sampleBlockedErrored] none).results.map (fun r => r.status)
      = [TStatus.failed] ∧
    (runTaskM sampleBlockedErrored).status ≠ TStatus.blocked := by
  decide

/-- C3: in a phase with three pending tasks where the first completes
cleanly, the second ends normally with some blocker chunk, and the
third is arbitrary, the aggregate is one completed, one blocked, zero
skipped, and the results list contains entries for the first two tasks
only: the untried third task is omitted, not recorded as skipped. -/
theorem executePhase_blocked_omits_untried (A B C : TaskSpecM)
    (hA : A.extStatus = ExtStatus.pending)
    (hB : B.extStatus = ExtStatus.pending)
    (hC : C.extStatus = ExtStatus.pending)
    (hAok : A.stream.errored = none)
    (hAnb : scanBlocker A.stream.chunks = none)
    (hBok : B.stream.errored = none)
    (hBb : ∃ r, scanBlocker B.stream.chunks = some r) :
    (executePhaseM [A, B, C] none).tasksCompleted = 1 ∧
    (executePhaseM [A, B, C] none).tasksBlocked = 1 ∧
    (executePhaseM [A, B, C] none).tasksSkipped = 0 ∧
    (executePhaseM [A, B, C] none).results.map (fun r => r.taskId) = [A.id, B.id] ∧
    (executePhaseM [A, B, C] none).results.map (fun r => r.status)
      = [TStatus.completed, TStatus.blocked] := by
  obtain ⟨rb, hrb⟩ := hBb
  have hrunA : runTaskM A = ⟨A.id, TStatus.completed, none, A.dur⟩ := by
    simp [runTaskM, hAok, hAnb]
  have hrunB : runTaskM B = ⟨B.id, TStatus.blocked, some rb, B.dur⟩ := by
    simp [runTaskM, hBok, hrb]
  simp [executePhaseM, isPendingLike, hA, hB, hC, phaseLoop, hrunA, hrunB]

/-- C3 witness: the theorem applied to the concrete clean / blocked /
pending tasks. -/
theorem executePhase_blocked_omits_untried_witness :
    (sampleClean.extStatus = ExtStatus.pending ∧
     sampleBlocked.extStatus = ExtStatus.pending ∧
     samplePending.extStatus = ExtStatus.pending ∧
     sampleClean.stream.errored = none ∧
     scanBlocker sampleClean.stream.chunks = none ∧
     sampleBlocked.stream.errored = none ∧
     (∃ r, scanBlocker sampleBlocked.stream.chunks = some r)) ∧
    ((executePhaseM [sampleClean, sampleBlocked, samplePending] none).tasksCompleted = 1 ∧
     (executePhaseM [sampleClean, sampleBlocked, samplePending] none).tasksBlocked = 1 ∧
     (executePhaseM [sampleClean, sampleBlocked, samplePending] none).tasksSkipped = 0 ∧
     (executePhaseM [sampleClean, sampleBlocked, samplePending] none).results.map
        (fun r => r.taskId) = [sampleClean.id, sampleBlocked.id]) := by
  refine ⟨⟨rfl, rfl, rfl, rfl, by decide, rfl, ⟨extractBlockerReason "BLOCKED: missing API key".toList, by decide⟩⟩, ?_⟩
  have h := executePhase_blocked_omits_untried sampleClean sampleBlocked samplePending
    rfl rfl rfl rfl (by decide) rfl
    ⟨extractBlockerReason "BLOCKED: missing API key".toList, by decide⟩
  exact ⟨h.1, h.2.1, h.2.2.1, h.2.2.2.1⟩

theorem runTaskM_status_ne_skipped (t : TaskSpecM) :
    (runTaskM t).status ≠ TStatus.skipped := by
  unfold runTaskM
  cases t.stream.errored with
  | some m => simp
  | none =>
    cases scanBlocker t.stream.chunks with
    | some r => simp
    | none => simp

theorem phaseLoop_stop_spec :
    ∀ (tasks : List TaskSpecM) (j : Nat),
      j < tasks.length →
      (∀ t ∈ tasks.take (j + 1), (runTaskM t).status ≠ TStatus.blocked) →
      phaseLoop tasks false (some j) =
        ((tasks.take (j + 1)).map runTaskM ++ (tasks.drop (j + 1)).map skipResultM, true) := by
  intro tasks
  induction tasks with
  | nil =>
    intro j hj _
    simp at hj
  | cons t rest ih =>
    intro j hj hnb
    have hnbt : (runTaskM t).status ≠ TStatus.blocked := by
      apply hnb
      simp
    cases j with
    | zero =>
      simp [phaseLoop, hnbt, phaseLoop_skip_all]
    | succ j2 =>
      have hj2 : j2 < rest.length := by
        simpa using Nat.lt_of_succ_lt_succ hj
      have hnb2 : ∀ x ∈ rest.take (j2 + 1), (runTaskM x).status ≠ TStatus.blocked := by
        intro x hx
        apply hnb
        simp [List.take_succ_cons]
        right
        exact hx
      simp [phaseLoop, hnbt, ih j2 hj2 hnb2, List.take_succ_cons]

/-- C4 (amended): for a phase of N pending tasks with
`stopAfterCurrentTask` issued while executed task j (0-based, so task
k = j+1 of the claim) is in flight, provided none of the first k tasks
resolves `blocked`, the result records the first k tasks with their
terminal statuses (`completed` or `failed`), the remaining N−k tasks as
`skipped` with zero duration, and `stoppedByUser = true`.  (The
amendment adds the no-blocker proviso: when the stop-issued task itself
ends `blocked`, the source breaks the loop and omits the untried tasks
instead of recording them skipped, see the counterexample.) -/
theorem executePhase_graceful_stop (tasks : List TaskSpecM) (j : Nat)
    (hall : ∀ t ∈ tasks, t.extStatus = ExtStatus.pending)
    (hj : j < tasks.length)
    (hnb : ∀ t ∈ tasks.take (j + 1), (runTaskM t).status ≠ TStatus.blocked) :
    (executePhaseM tasks (some j)).results
      = (tasks.take (j + 1)).map runTaskM ++ (tasks.drop (j + 1)).map skipResultM ∧
    (executePhaseM tasks (some j)).stoppedByUser = true ∧
    (executePhaseM tasks (some j)).tasksSkipped = tasks.length - (j + 1) ∧
    (∀ r ∈ (tasks.take (j + 1)).map runTaskM,
        r.status = TStatus.completed ∨ r.status = TStatus.failed) ∧
    (∀ r ∈ (tasks.drop (j + 1)).map skipResultM,
        r.status = TStatus.skipped ∧ r.duration = 0) := by
  have hfilter : tasks.filter (fun t => isPendingLike t.extStatus) = tasks := by
    apply List.filter_eq_self.mpr
    intro t ht
    simp [isPendingLike, hall t ht]
  have hne : tasks ≠ [] := by
    intro hnil
    rw [hnil] at hj
    simp at hj
  have hloop := phaseLoop_stop_spec tasks j hj hnb
  have hres : executePhaseM tasks (some j) =
      ⟨((tasks.take (j + 1)).map runTaskM ++ (tasks.drop (j + 1)).map skipResultM).countP
          (fun r => r.status == TStatus.completed),
       ((tasks.take (j + 1)).map runTaskM ++ (tasks.drop (j + 1)).map skipResultM).countP
          (fun r => r.status == TStatus.failed),
       ((tasks.take (j + 1)).map runTaskM ++ (tasks.drop (j + 1)).map skipResultM).countP
          (fun r => r.status == TStatus.blocked),
       ((tasks.take (j + 1)).map runTaskM ++ (tasks.drop (j + 1)).map skipResultM).countP
          (fun r => r.status == TStatus.skipped),
       (tasks.take (j + 1)).map runTaskM ++ (tasks.drop (j + 1)).map skipResultM,
       true,
       (((tasks.take (j + 1)).map runTaskM
           ++ (tasks.drop (j + 1)).map skipResultM).find?
          (fun r => r.status == TStatus.blocked)).bind (fun r => r.blockerReason)⟩ := by
    unfold executePhaseM
    rw [hfilter]
    rw [if_neg (by simpa [List.isEmpty_iff] using hne)]
    rw [hloop]
  refine ⟨by rw [hres], by rw [hres], ?_, ?_, ?_⟩
  · rw [hres]
    show (((tasks.take (j + 1)).map runTaskM
        ++ (tasks.drop (j + 1)).map skipResultM).countP
          (fun r => r.status == TStatus.skipped)) = tasks.length - (j + 1)
    rw [List.countP_append]
    have h1 : ((tasks.take (j + 1)).map runTaskM).countP
        (fun r => r.status == TStatus.skipped) = 0 := by
      rw [List.countP_eq_zero]
      intro r hr
      obtain ⟨x, _, hx⟩ := List.mem_map.mp hr
      simp [← hx, runTaskM_status_ne_skipped]
    have h2 : ((tasks.drop (j + 1)).map skipResultM).countP
        (fun r => r.status == TStatus.skipped)
        = ((tasks.drop (j + 1)).map skipResultM).length := by
      rw [List.countP_eq_length]
      intro r hr
      obtain ⟨x, _, hx⟩ := List.mem_map.mp hr
      simp [← hx, skipResultM]
    rw [h1, h2, List.length_map, List.length_drop]
    omega
  · intro r hr
    obtain ⟨x, hxmem, hx⟩ := List.mem_map.mp hr
    have hb : (runTaskM x).status ≠ TStatus.blocked := hnb x hxmem
    have hs : (runTaskM x).status ≠ TStatus.skipped := runTaskM_status_ne_skipped x
    rw [← hx]
    cases hst : (runTaskM x).status with
    | completed => left; rfl
    | failed => right; rfl
    | blocked => exact absurd hst hb
    | skipped => exact absurd hst hs
  · intro r hr
    obtain ⟨x, _, hx⟩ := List.mem_map.mp hr
    rw [← hx]
    exact ⟨rfl, rfl⟩

/-- Concrete pending task whose single chunk matches the `BLOCKED:`
pattern, used while a graceful stop is pending. -/
def stopBlockedTask : TaskSpecM :=
  ⟨21, ExtStatus.pending, ⟨["BLOCKED: need an API key".toList], none⟩, 4⟩

/-- Concrete pending task scheduled after the blocking one. -/
def stopAfterTask : TaskSpecM :=
  ⟨22, ExtStatus.pending, ⟨["later".toList], none⟩, 6⟩

/-- C4 counterexample: N = 2 pending tasks, graceful stop issued during
task k = 1, but that task resolves `blocked`: the loop breaks, the
result list has a single entry and no task is recorded `skipped`,
while the claim requires the remaining N−k = 1 task to appear with
status `skipped`. -/
theorem executePhase_stop_blocked_omits :
    (executePhaseM [stopBlockedTask, stopAfterTask] (some 0)).results.map
        (fun r => r.status) = [TStatus.blocked] ∧
    (executePhaseM [stopBlockedTask, stopAfterTask] (some 0)).tasksSkipped = 0 ∧
    (executePhaseM [stopBlockedTask, stopAfterTask] (some 0)).stoppedByUser = true := by
  decide

/-- C4 witness: two pending tasks, stop issued during the first (which
completes cleanly), instantiating the amended theorem. -/
theorem executePhase_graceful_stop_witness :
    ((∀ t ∈ [sampleClean, samplePending], t.extStatus = ExtStatus.pending) ∧
     0 < [sampleClean, samplePending].length ∧
     (∀ t ∈ [sampleClean, samplePending].take 1,
        (runTaskM t).status ≠ TStatus.blocked)) ∧
    ((executePhaseM [sampleClean, samplePending] (some 0)).results
       = [runTaskM sampleClean, skipResultM samplePending] ∧
     (executePhaseM [sampleClean, samplePending] (some 0)).stoppedByUser = true ∧
     (executePhaseM [sampleClean, samplePending] (some 0)).tasksSkipped = 1) := by
  have h := executePhase_graceful_stop [sampleClean, samplePending] 0
    (by decide) (by decide) (by decide)
  exact ⟨⟨by decide, by decide, by decide⟩, by simpa using h.1, h.2.1, by simpa using h.2.2.1⟩

/-! ## AgentManager: the per-execution output channel

Source: `AgentManager.executeTask`, `stopExecution`,
`getExecutionStatus`, and the emission structure of
`CopilotSdkAdapter.executeSdk`.  The channel is an rxjs `Subject`;
once the subject has received a `complete` or `error` notification,
every later call on it is dropped.  The one-shot path is driven by the
events of the spawned child process, supplied by the environment as a
list; the SDK path is driven by the outcome of the session round trip
described by an `SdkRun`. -/

/-- The `AgentOutput.type` discriminants. -/
inductive OutKind : Type
  | stdout
  | stderr
  | status
  | complete
  | error
  | tool_start
  | tool_end
  | tool_error
deriving DecidableEq

/-- One emitted `AgentOutput` event (timestamps are opaque wall-clock
values and are omitted). -/
structure OutEvt : Type where
  kind : OutKind
  data : List Char
deriving DecidableEq

/-- An event is terminal when it is a `complete` or an `error`. -/
def isTerminalEvt (e : OutEvt) : Bool :=
  e.kind == OutKind.complete || e.kind == OutKind.error

/-- Action performed on the subject: `next` a value, `complete` it, or
`error` it. -/
inductive SubjAct : Type
  | nxt (e : OutEvt)
  | fin
  | err
deriving DecidableEq

/-- Events a subscriber receives from a Subject fed the given actions:
values until the first terminal notification, after which everything is
dropped. -/
def deliver : List SubjAct → List OutEvt
  | [] => []
  | SubjAct.nxt e :: rest => e :: deliver rest
  | SubjAct.fin :: _ => []
  | SubjAct.err :: _ => []

/-- Whether the subscription ends in the error callback (an `err`
notification is reached before any `fin`). -/
def deliverErrored : List SubjAct → Bool
  | [] => false
  | SubjAct.nxt _ :: rest => deliverErrored rest
  | SubjAct.fin :: _ => false
  | SubjAct.err :: _ => true

/-- Execution status tracked in `runningProcesses`. -/
inductive RStatus : Type
  | running
  | completed
  | failed
  | stopped
deriving DecidableEq

/-- The initial status heartbeat `Started <adapter> for task: <title>`
emitted by `executeTask` on both paths. -/
def heartbeat (adapterName taskTitle : List Char) : OutEvt :=
  ⟨OutKind.status, "Started ".toList ++ adapterName ++ " for task: ".toList ++ taskTitle⟩

/-! ### One-shot path -/

/-- Events of the spawned child process, in the order its handlers
fire: stdout data, stderr data, `close` with an exit code (null when
killed by a signal), or `error`. -/
inductive ProcEvt : Type
  | out (s : List Char)
  | errOut (s : List Char)
  | closed (code : Option Int)
  | errored (msg : List Char)
deriving DecidableEq

/-- Text of the exit code in the `complete` event, `null` included. -/
def codeText : Option Int → List Char
  | some c => (toString c).toList
  | none => "null".toList

/-- Subject actions performed by the stdout/stderr/close/error handlers
of the one-shot path, in process-event order. -/
def oneShotActs : List ProcEvt → List SubjAct
  | [] => []
  | ProcEvt.out s :: r => SubjAct.nxt ⟨OutKind.stdout, s⟩ :: oneShotActs r
  | ProcEvt.errOut s :: r => SubjAct.nxt ⟨OutKind.stderr, s⟩ :: oneShotActs r
  | ProcEvt.closed c :: r =>
    SubjAct.nxt ⟨OutKind.complete, "Process exited with code: ".toList ++ codeText c⟩
      :: SubjAct.fin :: oneShotActs r
  | ProcEvt.errored m :: r =>
    SubjAct.nxt ⟨OutKind.error, m⟩ :: SubjAct.err :: oneShotActs r

/-- Full action sequence of a one-shot execution whose spawn succeeded:
the heartbeat, then the handler-driven actions. -/
def oneShotSubjActs (name title : List Char) (evs : List ProcEvt) : List SubjAct :=
  SubjAct.nxt (heartbeat name title) :: oneShotActs evs

/-- Events delivered on the channel of a one-shot execution. -/
def oneShotTrace (name title : List Char) (evs : List ProcEvt) : List OutEvt :=
  deliver (oneShotSubjActs name title evs)

/-- Events delivered when `adapter.execute` itself throws (the `catch`
block of `executeTask`): one error event, then an error notification. -/
def spawnFailTrace (msg : List Char) : List OutEvt :=
  deliver [SubjAct.nxt ⟨OutKind.error, msg⟩, SubjAct.err]

/-- Effect of one process event on the tracked status: `close` sets
`completed` for exit code 0 and `failed` otherwise, `error` sets
`failed`; both assign unconditionally, data events leave it alone. -/
def statusStep (st : RStatus) (e : ProcEvt) : RStatus :=
  match e with
  | ProcEvt.closed c => if c == some 0 then RStatus.completed else RStatus.failed
  | ProcEvt.errored _ => RStatus.failed
  | _ => st

/-- Status left in `runningProcesses` by the one-shot handlers after
all process events fired. -/
def oneShotFinalStatus (evs : List ProcEvt) : RStatus :=
  evs.foldl statusStep RStatus.running

/-- Message of the error notification the subscriber receives, if any:
the first terminal process event decides (the subject ignores
everything after it). -/
def oneShotErrSignal : List ProcEvt → Option (List Char)
  | [] => none
  | ProcEvt.closed _ :: _ => none
  | ProcEvt.errored m :: _ => some m
  | _ :: r => oneShotErrSignal r

/-- The task stream the orchestrator subscription observes for a
one-shot execution: the data of every delivered event, and the error
message when the subject errored. -/
def oneShotStream (name title : List Char) (evs : List ProcEvt) : TaskStream :=
  ⟨(oneShotTrace name title evs).map (fun e => e.data), oneShotErrSignal evs⟩

/-! ### SDK session path -/

/-- Session events translated by the `session.on` handler of
`executeSdk`, plus the tool events raised directly by the sandbox tool
handlers; only events that fire while not cancelled are listed. -/
inductive SdkSessEvt : Type
  | msgDelta (s : List Char)
  | msg (s : List Char)
  | toolStart (name : List Char)
  | toolEnd (name : List Char)
  | toolFail (name : List Char) (emsg : List Char)
deriving DecidableEq

/-- One SDK round trip as the environment resolves it. -/
structure SdkRun : Type where
  clientStarted : Bool
  modelName : Option (List Char)
  taskTitle : List Char
  startErr : Option (List Char)
  createErr : Option (List Char)
  sessionEvents : List SdkSessEvt
  sendErr : Option (List Char)
  cancelled : Bool
deriving DecidableEq

/-- The `task.model || 'default'` display text. -/
def modelDisplay (m : Option (List Char)) : List Char :=
  m.getD "default".toList

/-- The `Creating session with model: ...` status event. -/
def creatingEvt (m : Option (List Char)) : OutEvt :=
  ⟨OutKind.status, "Creating session with model: ".toList ++ modelDisplay m ++ "...".toList⟩

/-- The `Connecting to Copilot SDK...` status event. -/
def connectingEvt : OutEvt :=
  ⟨OutKind.status, "Connecting to Copilot SDK...".toList⟩

/-- The adapter output event emitted synchronously during the
`executeSdk` call itself (the async body runs up to its first await
before `executeSdk` returns): `Connecting` when no client exists yet,
otherwise `Creating session`. -/
def sdkSyncEvent (run : SdkRun) : OutEvt :=
  if run.clientStarted then creatingEvt run.modelName else connectingEvt

/-- The human-readable line `formatToolStatus` produces for a tool
event. -/
def formatToolStatus (k : OutKind) (name : List Char) (emsg : Option (List Char)) : List Char :=
  match k with
  | OutKind.tool_start => "🔧 ".toList ++ name ++ " started".toList
  | OutKind.tool_end => "✅ ".toList ++ name ++ " completed".toList
  | OutKind.tool_error =>
    "❌ ".toList ++ name ++ " failed: ".toList ++ emsg.getD "Unknown error".toList
  | _ => name

/-- Events `handleToolEvent` pushes for one tool event: a status line
plus the structured tool event. -/
def wrapToolEvt (k : OutKind) (name : List Char) (emsg : Option (List Char)) : List OutEvt :=
  [⟨OutKind.status, formatToolStatus k name emsg⟩, ⟨k, formatToolStatus k name emsg⟩]

/-- Channel events produced for one translated session event. -/
def sessEvtOutputs : SdkSessEvt → List OutEvt
  | SdkSessEvt.msgDelta s => [⟨OutKind.stdout, s⟩]
  | SdkSessEvt.msg s => [⟨OutKind.stdout, '\n' :: s⟩]
  | SdkSessEvt.toolStart n => wrapToolEvt OutKind.tool_start n none
  | SdkSessEvt.toolEnd n => wrapToolEvt OutKind.tool_end n none
  | SdkSessEvt.toolFail n m => wrapToolEvt OutKind.tool_error n (some m)

/-- Adapter output events of the body from session creation onwards:
either the caught `createSession` failure, or the `Starting task`
status, the translated session events, and the guarded terminal
(`complete` on success, `error` on a caught `sendAndWait` failure,
nothing when cancelled). -/
def sdkTerminalPart (run : SdkRun) : List OutEvt :=
  match run.createErr with
  | some m => if run.cancelled then [] else [⟨OutKind.error, m⟩]
  | none =>
    ⟨OutKind.status, "Starting task: ".toList ++ run.taskTitle⟩
      :: run.sessionEvents.flatMap sessEvtOutputs
      ++ (match run.sendErr with
          | some m => if run.cancelled then [] else [⟨OutKind.error, m⟩]
          | none =>
            if run.cancelled then []
            else [⟨OutKind.complete, "Task completed successfully".toList⟩])

/-- Adapter output events emitted after `executeSdk` has returned, in
body order: when no client existed yet, the caught `startClient`
failure or the `Creating session` status first, then the rest of the
body. -/
def sdkAsyncEvents (run : SdkRun) : List OutEvt :=
  if run.clientStarted then sdkTerminalPart run
  else
    match run.startErr with
    | some m => if run.cancelled then [] else [⟨OutKind.error, m⟩]
    | none => creatingEvt run.modelName :: sdkTerminalPart run

/-- Every event the SDK path pushes on the subject, in order: the
wrapped synchronous adapter status, then the heartbeat `executeTask`
emits after calling `executeSdk`, then the asynchronous adapter
events; `done.finally` completes the subject afterwards. -/
def sdkEmittedEvents (name : List Char) (run : SdkRun) : List OutEvt :=
  sdkSyncEvent run :: heartbeat name run.taskTitle :: sdkAsyncEvents run

/-- Action sequence of the SDK path: all the pushed values, then the
completion from `done.finally` (the `done` promise never rejects, its
body catches every failure). -/
def sdkSubjActs (name : List Char) (run : SdkRun) : List SubjAct :=
  (sdkEmittedEvents name run).map SubjAct.nxt ++ [SubjAct.fin]

/-- Events delivered on the channel of an SDK execution. -/
def sdkTrace (name : List Char) (run : SdkRun) : List OutEvt :=
  deliver (sdkSubjActs name run)

/-! ### stopExecution and the status registry -/

/-- Entry of the `runningProcesses` map (the process handle or cancel
callback is irrelevant to status tracking and is abstracted to a tag). -/
structure RunningProcM : Type where
  isProcessHandle : Bool
  status : RStatus
deriving DecidableEq

/-- Embedding of `getExecutionStatus`: pure read of the tracked
status. -/
def getExecutionStatusM (procs : List (List Char × RunningProcM)) (pid : List Char) :
    Option RStatus :=
  (procs.lookup pid).map (fun p => p.status)

/-- Embedding of `stopExecution`: throw when the processId is unknown;
otherwise kill or cancel (effect-free on the registry) and set the
status to `stopped` unconditionally. -/
def stopExecutionM (procs : List (List Char × RunningProcM)) (pid : List Char) :
    Except (List Char) (List (List Char × RunningProcM)) :=
  match procs.lookup pid with
  | none => Except.error ("Process not found: ".toList ++ pid)
  | some _ =>
    Except.ok (procs.map (fun p =>
      if p.1 == pid then (p.1, { p.2 with status := RStatus.stopped }) else p))

/-! ### Channel lemmas -/

/-- Data (stdout/stderr) process events, as opposed to terminal ones. -/
def isDataEvt : ProcEvt → Bool
  | ProcEvt.out _ => true
  | ProcEvt.errOut _ => true
  | _ => false

/-- The channel event a single process event produces. -/
def procEvtOut : ProcEvt → OutEvt
  | ProcEvt.out s => ⟨OutKind.stdout, s⟩
  | ProcEvt.errOut s => ⟨OutKind.stderr, s⟩
  | ProcEvt.closed c => ⟨OutKind.complete, "Process exited with code: ".toList ++ codeText c⟩
  | ProcEvt.errored m => ⟨OutKind.error, m⟩

theorem procEvtOut_nonterminal (e : ProcEvt) (h : isDataEvt e = true) :
    isTerminalEvt (procEvtOut e) = false := by
  cases e with
  | out s => rfl
  | errOut s => rfl
  | closed c => simp [isDataEvt] at h
  | errored m => simp [isDataEvt] at h

theorem deliver_oneShotActs_closed :
    ∀ (pre : List ProcEvt), (∀ e ∈ pre, isDataEvt e = true) →
    ∀ (c : Option Int) (rest : List ProcEvt),
      deliver (oneShotActs (pre ++ ProcEvt.closed c :: rest))
        = pre.map procEvtOut
          ++ [⟨OutKind.complete, "Process exited with code: ".toList ++ codeText c⟩] := by
  intro pre
  induction pre with
  | nil =>
    intro _ c rest
    simp [oneShotActs, deliver]
  | cons e pre2 ih =>
    intro hpre c rest
    have he : isDataEvt e = true := hpre e (List.mem_cons_self e pre2)
    have hpre2 : ∀ x ∈ pre2, isDataEvt x = true :=
      fun x hx => hpre x (List.mem_cons_of_mem e hx)
    cases e with
    | out s => simpa [oneShotActs, deliver, procEvtOut] using ih hpre2 c rest
    | errOut s => simpa [oneShotActs, deliver, procEvtOut] using ih hpre2 c rest
    | closed c2 => simp [isDataEvt] at he
    | errored m => simp [isDataEvt] at he

theorem deliver_oneShotActs_errored :
    ∀ (pre : List ProcEvt), (∀ e ∈ pre, isDataEvt e = true) →
    ∀ (m : List Char) (rest : List ProcEvt),
      deliver (oneShotActs (pre ++ ProcEvt.errored m :: rest))
        = pre.map procEvtOut ++ [⟨OutKind.error, m⟩] := by
  intro pre
  induction pre with
  | nil =>
    intro _ m rest
    simp [oneShotActs, deliver]
  | cons e pre2 ih =>
    intro hpre m rest
    have he : isDataEvt e = true := hpre e (List.mem_cons_self e pre2)
    have hpre2 : ∀ x ∈ pre2, isDataEvt x = true :=
      fun x hx => hpre x (List.mem_cons_of_mem e hx)
    cases e with
    | out s => simpa [oneShotActs, deliver, procEvtOut] using ih hpre2 m rest
    | errOut s => simpa [oneShotActs, deliver, procEvtOut] using ih hpre2 m rest
    | closed c2 => simp [isDataEvt] at he
    | errored m2 => simp [isDataEvt] at he

theorem oneShotErrSignal_closed :
    ∀ (pre : List ProcEvt), (∀ e ∈ pre, isDataEvt e = true) →
    ∀ (c : Option Int) (rest : List ProcEvt),
      oneShotErrSignal (pre ++ ProcEvt.closed c :: rest) = none := by
  intro pre
  induction pre with
  | nil => intro _ c rest; rfl
  | cons e pre2 ih =>
    intro hpre c rest
    have he : isDataEvt e = true := hpre e (List.mem_cons_self e pre2)
    have hpre2 : ∀ x ∈ pre2, isDataEvt x = true :=
      fun x hx => hpre x (List.mem_cons_of_mem e hx)
    cases e with
    | out s => simpa [oneShotErrSignal] using ih hpre2 c rest
    | errOut s => simpa [oneShotErrSignal] using ih hpre2 c rest
    | closed c2 => simp [isDataEvt] at he
    | errored m => simp [isDataEvt] at he

theorem oneShotErrSignal_errored :
    ∀ (pre : List ProcEvt), (∀ e ∈ pre, isDataEvt e = true) →
    ∀ (m : List Char) (rest : List ProcEvt),
      oneShotErrSignal (pre ++ ProcEvt.errored m :: rest) = some m := by
  intro pre
  induction pre with
  | nil => intro _ m rest; rfl
  | cons e pre2 ih =>
    intro hpre m rest
    have he : isDataEvt e = true := hpre e (List.mem_cons_self e pre2)
    have hpre2 : ∀ x ∈ pre2, isDataEvt x = true :=
      fun x hx => hpre x (List.mem_cons_of_mem e hx)
    cases e with
    | out s => simpa [oneShotErrSignal] using ih hpre2 m rest
    | errOut s => simpa [oneShotErrSignal] using ih hpre2 m rest
    | closed c2 => simp [isDataEvt] at he
    | errored m2 => simp [isDataEvt] at he

theorem foldl_statusStep_data :
    ∀ (pre : List ProcEvt), (∀ e ∈ pre, isDataEvt e = true) →
    ∀ st, pre.foldl statusStep st = st := by
  intro pre
  induction pre with
  | nil => intro _ st; rfl
  | cons e pre2 ih =>
    intro hpre st
    have he : isDataEvt e = true := hpre e (List.mem_cons_self e pre2)
    have hpre2 : ∀ x ∈ pre2, isDataEvt x = true :=
      fun x hx => hpre x (List.mem_cons_of_mem e hx)
    cases e with
    | out s => simpa [statusStep] using ih hpre2 st
    | errOut s => simpa [statusStep] using ih hpre2 st
    | closed c2 => simp [isDataEvt] at he
    | errored m => simp [isDataEvt] at he

theorem deliver_map_nxt_fin :
    ∀ es : List OutEvt, deliver (es.map SubjAct.nxt ++ [SubjAct.fin]) = es := by
  intro es
  induction es with
  | nil => rfl
  | cons e rest ih => simp [deliver, ih]

theorem sdkTrace_eq_emitted (name : List Char) (run : SdkRun) :
    sdkTrace name run = sdkEmittedEvents name run := by
  unfold sdkTrace sdkSubjActs
  exact deliver_map_nxt_fin _

theorem sessEvtOutputs_nonterminal :
    ∀ (ev : SdkSessEvt), ∀ e ∈ sessEvtOutputs ev, isTerminalEvt e = false := by
  intro ev e he
  cases ev with
  | msgDelta s =>
    simp [sessEvtOutputs] at he
    simp [he, isTerminalEvt]
  | msg s =>
    simp [sessEvtOutputs] at he
    simp [he, isTerminalEvt]
  | toolStart n =>
    simp [sessEvtOutputs, wrapToolEvt] at he
    rcases he with h | h <;> simp [h, isTerminalEvt]
  | toolEnd n =>
    simp [sessEvtOutputs, wrapToolEvt] at he
    rcases he with h | h <;> simp [h, isTerminalEvt]
  | toolFail n m =>
    simp [sessEvtOutputs, wrapToolEvt] at he
    rcases he with h | h <;> simp [h, isTerminalEvt]

theorem sdkTerminalPart_split (run : SdkRun) (h : run.cancelled = false) :
    ∃ p e, sdkTerminalPart run = p ++ [e] ∧ isTerminalEvt e = true ∧
      ∀ x ∈ p, isTerminalEvt x = false := by
  unfold sdkTerminalPart
  cases hce : run.createErr with
  | some m =>
    exact ⟨[], ⟨OutKind.error, m⟩, by simp [h], rfl, by simp⟩
  | none =>
    cases hse : run.sendErr with
    | some m =>
      refine ⟨⟨OutKind.status, "Starting task: ".toList ++ run.taskTitle⟩
          :: run.sessionEvents.flatMap sessEvtOutputs,
        ⟨OutKind.error, m⟩, by simp [h], rfl, ?_⟩
      intro x hx
      rcases List.mem_cons.mp hx with hx1 | hx2
      · simp [hx1, isTerminalEvt]
      · obtain ⟨ev, _, hev⟩ := List.mem_flatMap.mp hx2
        exact sessEvtOutputs_nonterminal ev x hev
    | none =>
      refine ⟨⟨OutKind.status, "Starting task: ".toList ++ run.taskTitle⟩
          :: run.sessionEvents.flatMap sessEvtOutputs,
        ⟨OutKind.complete, "Task completed successfully".toList⟩, by simp [h], rfl, ?_⟩
      intro x hx
      rcases List.mem_cons.mp hx with hx1 | hx2
      · simp [hx1, isTerminalEvt]
      · obtain ⟨ev, _, hev⟩ := List.mem_flatMap.mp hx2
        exact sessEvtOutputs_nonterminal ev x hev

theorem sdkAsyncEvents_split (run : SdkRun) (h : run.cancelled = false) :
    ∃ p e, sdkAsyncEvents run = p ++ [e] ∧ isTerminalEvt e = true ∧
      ∀ x ∈ p, isTerminalEvt x = false := by
  unfold sdkAsyncEvents
  cases hcs : run.clientStarted with
  | true =>
    simpa using sdkTerminalPart_split run h
  | false =>
    simp only [Bool.false_eq_true, if_false]
    cases hst : run.startErr with
    | some m =>
      exact ⟨[], ⟨OutKind.error, m⟩, by simp [h], rfl, by simp⟩
    | none =>
      obtain ⟨p, e, hsplit, hterm, hpre⟩ := sdkTerminalPart_split run h
      refine ⟨creatingEvt run.modelName :: p, e, by simp [hsplit], hterm, ?_⟩
      intro x hx
      rcases List.mem_cons.mp hx with hx1 | hx2
      · simp [hx1, creatingEvt, isTerminalEvt]
      · exact hpre x hx2

theorem sdkTerminalPart_cancelled_nonterminal (run : SdkRun) (h : run.cancelled = true) :
    ∀ x ∈ sdkTerminalPart run, isTerminalEvt x = false := by
  intro x hx
  unfold sdkTerminalPart at hx
  cases hce : run.createErr with
  | some m =>
    rw [hce] at hx
    simp [h] at hx
  | none =>
    rw [hce] at hx
    cases hse : run.sendErr with
    | some m =>
      rw [hse] at hx
      simp [h] at hx
      rcases hx with hx1 | hx2
      · simp [hx1, isTerminalEvt]
      · obtain ⟨ev, _, hev⟩ := hx2
        exact sessEvtOutputs_nonterminal ev x hev
    | none =>
      rw [hse] at hx
      simp [h] at hx
      rcases hx with hx1 | hx2
      · simp [hx1, isTerminalEvt]
      · obtain ⟨ev, _, hev⟩ := hx2
        exact sessEvtOutputs_nonterminal ev x hev

theorem sdkAsyncEvents_cancelled_nonterminal (run : SdkRun) (h : run.cancelled = true) :
    ∀ x ∈ sdkAsyncEvents run, isTerminalEvt x = false := by
  intro x hx
  unfold sdkAsyncEvents at hx
  cases hcs : run.clientStarted with
  | true =>
    rw [hcs] at hx
    simp at hx
    exact sdkTerminalPart_cancelled_nonterminal run h x hx
  | false =>
    rw [hcs] at hx
    simp at hx
    cases hst : run.startErr with
    | some m =>
      rw [hst] at hx
      simp [h] at hx
    | none =>
      rw [hst] at hx
      rcases List.mem_cons.mp hx with hx1 | hx2
      · simp [hx1, creatingEvt, isTerminalEvt]
      · exact sdkTerminalPart_cancelled_nonterminal run h x hx2

/-- C1 (amended): a one-shot execution whose process reaches a `close`
or `error` event delivers exactly one terminal event, as the last
delivered event; a synchronous spawn failure delivers exactly the one
`error` event; a session execution that is not cancelled delivers
exactly one terminal event, last; but a cancelled session execution
delivers no terminal event at all — its channel just completes (the
divergence forcing the amendment, see the counterexample). -/
theorem executeTask_one_terminal (name title msg : List Char) (pre : List ProcEvt)
    (t : ProcEvt) (rest : List ProcEvt) (run : SdkRun)
    (hpre : ∀ e ∈ pre, isDataEvt e = true)
    (ht : isDataEvt t = false) :
    (∃ p e, oneShotTrace name title (pre ++ t :: rest) = p ++ [e] ∧
        isTerminalEvt e = true ∧ ∀ x ∈ p, isTerminalEvt x = false) ∧
    spawnFailTrace msg = [⟨OutKind.error, msg⟩] ∧
    (run.cancelled = false →
      ∃ p e, sdkTrace name run = p ++ [e] ∧
        isTerminalEvt e = true ∧ ∀ x ∈ p, isTerminalEvt x = false) ∧
    (run.cancelled = true → (sdkTrace name run).filter isTerminalEvt = []) := by
  refine ⟨?_, rfl, ?_, ?_⟩
  · have hone : oneShotTrace name title (pre ++ t :: rest)
        = heartbeat name title :: deliver (oneShotActs (pre ++ t :: rest)) := rfl
    have hnonterm : ∀ x ∈ heartbeat name title :: pre.map procEvtOut,
        isTerminalEvt x = false := by
      intro x hx
      rcases List.mem_cons.mp hx with hx1 | hx2
      · simp [hx1, heartbeat, isTerminalEvt]
      · obtain ⟨ev, hev, hx3⟩ := List.mem_map.mp hx2
        rw [← hx3]
        exact procEvtOut_nonterminal ev (hpre ev hev)
    cases t with
    | out s => simp [isDataEvt] at ht
    | errOut s => simp [isDataEvt] at ht
    | closed c =>
      refine ⟨heartbeat name title :: pre.map procEvtOut,
        ⟨OutKind.complete, "Process exited with code: ".toList ++ codeText c⟩,
        ?_, rfl, hnonterm⟩
      rw [hone, deliver_oneShotActs_closed pre hpre c rest]
      rfl
    | errored m2 =>
      refine ⟨heartbeat name title :: pre.map procEvtOut, ⟨OutKind.error, m2⟩,
        ?_, rfl, hnonterm⟩
      rw [hone, deliver_oneShotActs_errored pre hpre m2 rest]
      rfl
  · intro hnc
    obtain ⟨p, e, hsplit, hterm, hp⟩ := sdkAsyncEvents_split run hnc
    refine ⟨sdkSyncEvent run :: heartbeat name run.taskTitle :: p, e, ?_, hterm, ?_⟩
    · rw [sdkTrace_eq_emitted]
      unfold sdkEmittedEvents
      rw [hsplit]
      rfl
    · intro x hx
      rcases List.mem_cons.mp hx with hx1 | hx2
      · rw [hx1]
        unfold sdkSyncEvent
        cases run.clientStarted <;> rfl
      · rcases List.mem_cons.mp hx2 with hx3 | hx4
        · simp [hx3, heartbeat, isTerminalEvt]
        · exact hp x hx4
  · intro hc
    rw [sdkTrace_eq_emitted]
    rw [List.filter_eq_nil]
    intro x hx
    unfold sdkEmittedEvents at hx
    rcases List.mem_cons.mp hx with hx1 | hx2
    · rw [hx1]
      unfold sdkSyncEvent
      cases run.clientStarted <;> simp [creatingEvt, connectingEvt, isTerminalEvt]
    · rcases List.mem_cons.mp hx2 with hx3 | hx4
      · simp [hx3, heartbeat, isTerminalEvt]
      · simp [sdkAsyncEvents_cancelled_nonterminal run hc x hx4]

/-- Concrete cancelled SDK run: client already started, one delta got
through, the aborted `sendAndWait` rejection is swallowed because
`cancelled` is set. -/
def cancelledRun : SdkRun :=
  ⟨true, some "gpt-5".toList, "Build".toList, none, none,
   [SdkSessEvt.msgDelta "partial".toList], some "Aborted".toList, true⟩

/-- C1 counterexample: the cancelled session execution delivers four
events and none of them is terminal — its stream completes without any
`complete` or `error` event, refuting the claim for this execution. -/
theorem cancelled_sdk_no_terminal :
    (sdkTrace "GitHub Copilot (SDK)".toList cancelledRun).filter isTerminalEvt = [] ∧
    (sdkTrace "GitHub Copilot (SDK)".toList cancelledRun).length = 4 := by
  decide

/-- Concrete SDK run that completes normally with the client already
started. -/
def plainSdkRun : SdkRun :=
  ⟨true, none, "Ship it".toList, none, none, [], none, false⟩

/-- C1 witness: the amended theorem applied to a one-shot run with one
stdout chunk and a clean exit, and the plain uncancelled SDK run. -/
theorem executeTask_one_terminal_witness :
    ((∀ e ∈ [ProcEvt.out "hello".toList], isDataEvt e = true) ∧
     isDataEvt (ProcEvt.closed (some 0)) = false) ∧
    ((∃ p e, oneShotTrace "GitHub Copilot (SDK)".toList "Build".toList
        ([ProcEvt.out "hello".toList] ++ ProcEvt.closed (some 0) :: []) = p ++ [e] ∧
        isTerminalEvt e = true ∧ ∀ x ∈ p, isTerminalEvt x = false) ∧
     (plainSdkRun.cancelled = false →
       ∃ p e, sdkTrace "GitHub Copilot (SDK)".toList plainSdkRun = p ++ [e] ∧
         isTerminalEvt e = true ∧ ∀ x ∈ p, isTerminalEvt x = false)) := by
  have h := executeTask_one_terminal "GitHub Copilot (SDK)".toList "Build".toList
    "spawn failed".toList [ProcEvt.out "hello".toList]
    (ProcEvt.closed (some 0)) [] plainSdkRun (by decide) (by decide)
  exact ⟨⟨by decide, by decide⟩, h.1, h.2.2.1⟩

/-- C5 helper: after the stop update, looking up the same processId
yields the entry with status overwritten to `stopped`. -/
theorem lookup_stop_update :
    ∀ (procs : List (List Char × RunningProcM)) (pid : List Char) (info : RunningProcM),
      procs.lookup pid = some info →
      (procs.map (fun p =>
          if p.1 == pid then (p.1, { p.2 with status := RStatus.stopped }) else p)).lookup pid
        = some { info with status := RStatus.stopped } := by
  intro procs pid
  induction procs with
  | nil =>
    intro info h
    simp [List.lookup] at h
  | cons q rest ih =>
    intro info h
    obtain ⟨k, v⟩ := q
    by_cases hk : pid = k
    · subst hk
      simp only [List.lookup, beq_self_eq_true] at h
      injection h with hv
      simp only [List.map_cons, beq_self_eq_true, if_true]
      simp [List.lookup, hv]
    · have h1 : (pid == k) = false := beq_eq_false_iff_ne.mpr hk
      have h2 : (k == pid) = false := beq_eq_false_iff_ne.mpr (Ne.symm hk)
      simp only [List.lookup, h1] at h
      simp only [List.map_cons, h2, Bool.false_eq_true, if_false]
      simp only [List.lookup, h1]
      exact ih info h

/-- C5 (amended): for every tracked processId — one whose status is
already terminal included — `stopExecution` does not throw, and it
always overwrites the tracked status with `stopped`; the status is
unchanged only when it already was `stopped`.  (The claim as stated
says the status is left unchanged; the source assigns
`processInfo.status = 'stopped'` unconditionally, see the
counterexample.) -/
theorem stopExecution_tracked (procs : List (List Char × RunningProcM))
    (pid : List Char) (info : RunningProcM)
    (h : procs.lookup pid = some info) :
    ∃ procs2, stopExecutionM procs pid = Except.ok procs2 ∧
      getExecutionStatusM procs2 pid = some RStatus.stopped := by
  unfold stopExecutionM
  rw [h]
  refine ⟨_, rfl, ?_⟩
  unfold getExecutionStatusM
  rw [lookup_stop_update procs pid info h]
  rfl

/-- Registry with a single completed execution. -/
def trackedDone : List (List Char × RunningProcM) :=
  [("p1".toList, ⟨true, RStatus.completed⟩)]

/-- C5 counterexample: `stopExecution` on a processId whose status is
the terminal `completed` succeeds but changes the tracked status to
`stopped`, refuting the claim that the status is left unchanged. -/
theorem stopExecution_overrides_terminal :
    getExecutionStatusM trackedDone "p1".toList = some RStatus.completed ∧
    (stopExecutionM trackedDone "p1".toList).toOption
      = some [("p1".toList, ⟨true, RStatus.stopped⟩)] ∧
    RStatus.stopped ≠ RStatus.completed := by
  decide

/-- C5 witness: the amended theorem applied to the registry with one
completed execution. -/
theorem stopExecution_tracked_witness :
    trackedDone.lookup "p1".toList = some ⟨true, RStatus.completed⟩ ∧
    (∃ procs2, stopExecutionM trackedDone "p1".toList = Except.ok procs2 ∧
      getExecutionStatusM procs2 "p1".toList = some RStatus.stopped) :=
  ⟨by decide,
   stopExecution_tracked trackedDone "p1".toList ⟨true, RStatus.completed⟩ (by decide)⟩

/-- C6 (amended): a one-shot stream error makes the stream terminate
with an `error` event and the orchestrator records the task `failed`;
but a one-shot process exiting with a nonzero code is recorded `failed`
only in the execution registry — its stream terminates with a
`complete` event and the orchestrator records the task `completed`
(absent blocker text), see the counterexample. -/
theorem runtime_failure_semantics (name title : List Char) (pre : List ProcEvt)
    (m : List Char) (rest : List ProcEvt) (c : Option Int) (tid d : Nat) (est : ExtStatus)
    (hpre : ∀ e ∈ pre, isDataEvt e = true)
    (hc : c ≠ some 0)
    (hnb : scanBlocker (oneShotStream name title (pre ++ [ProcEvt.closed c])).chunks = none) :
    (oneShotTrace name title (pre ++ ProcEvt.errored m :: rest)
       = heartbeat name title :: pre.map procEvtOut ++ [⟨OutKind.error, m⟩]) ∧
    ((runTaskM ⟨tid, est,
        oneShotStream name title (pre ++ ProcEvt.errored m :: rest), d⟩).status
       = TStatus.failed) ∧
    (oneShotTrace name title (pre ++ [ProcEvt.closed c])
       = heartbeat name title :: pre.map procEvtOut
         ++ [⟨OutKind.complete, "Process exited with code: ".toList ++ codeText c⟩]) ∧
    (oneShotFinalStatus (pre ++ [ProcEvt.closed c]) = RStatus.failed) ∧
    ((runTaskM ⟨tid, est,
        oneShotStream name title (pre ++ [ProcEvt.closed c]), d⟩).status
       = TStatus.completed) := by
  refine ⟨?_, ?_, ?_, ?_, ?_⟩
  · have hone : oneShotTrace name title (pre ++ ProcEvt.errored m :: rest)
        = heartbeat name title :: deliver (oneShotActs (pre ++ ProcEvt.errored m :: rest)) := rfl
    rw [hone, deliver_oneShotActs_errored pre hpre m rest]
    rfl
  · simp [runTaskM, oneShotStream, oneShotErrSignal_errored pre hpre m rest]
  · have hone : oneShotTrace name title (pre ++ [ProcEvt.closed c])
        = heartbeat name title :: deliver (oneShotActs (pre ++ [ProcEvt.closed c])) := rfl
    rw [hone, deliver_oneShotActs_closed pre hpre c []]
    rfl
  · have hbeq : (c == some 0) = false := beq_eq_false_iff_ne.mpr hc
    unfold oneShotFinalStatus
    rw [List.foldl_append, foldl_statusStep_data pre hpre]
    simp [statusStep, hbeq]
  · simp [runTaskM, oneShotStream, oneShotErrSignal_closed pre hpre c []] at hnb ⊢
    simp [hnb]

/-- C6 counterexample: a one-shot process exiting with code 1 delivers
`status` then `complete` (no `error` event), sets the registry status
to `failed`, and the orchestrator records the task `completed`, not
`failed` as the claim requires. -/
theorem nonzero_exit_not_failed :
    ((oneShotTrace "GitHub Copilot CLI".toList "Build".toList
        [ProcEvt.closed (some 1)]).map (fun e => e.kind)
      = [OutKind.status, OutKind.complete]) ∧
    oneShotFinalStatus [ProcEvt.closed (some 1)] = RStatus.failed ∧
    (runTaskM ⟨5, ExtStatus.pending,
        oneShotStream "GitHub Copilot CLI".toList "Build".toList
          [ProcEvt.closed (some 1)], 3⟩).status = TStatus.completed := by
  decide

/-- C6 witness: the amended theorem applied to a run with one stdout
chunk followed by a stream error, and the same prefix followed by exit
code 2. -/
theorem runtime_failure_semantics_witness :
    ((∀ e ∈ [ProcEvt.out "compiling".toList], isDataEvt e = true) ∧
     some (2 : Int) ≠ some 0 ∧
     scanBlocker (oneShotStream "GitHub Copilot CLI".toList "Build".toList
        ([ProcEvt.out "compiling".toList] ++ [ProcEvt.closed (some 2)])).chunks = none) ∧
    ((runTaskM ⟨7, ExtStatus.pending,
        oneShotStream "GitHub Copilot CLI".toList "Build".toList
          ([ProcEvt.out "compiling".toList] ++ ProcEvt.errored "boom".toList :: []), 4⟩).status
       = TStatus.failed ∧
     oneShotFinalStatus ([ProcEvt.out "compiling".toList] ++ [ProcEvt.closed (some 2)])
       = RStatus.failed ∧
     (runTaskM ⟨7, ExtStatus.pending,
        oneShotStream "GitHub Copilot CLI".toList "Build".toList
          ([ProcEvt.out "compiling".toList] ++ [ProcEvt.closed (some 2)]), 4⟩).status
       = TStatus.completed) := by
  have h := runtime_failure_semantics "GitHub Copilot CLI".toList "Build".toList
    [ProcEvt.out "compiling".toList] "boom".toList [] (some 2) 7 4 ExtStatus.pending
    (by decide) (by decide) (by decide)
  exact ⟨⟨by decide, by decide, by decide⟩, h.2.1, h.2.2.2.1, h.2.2.2.2⟩

/-- C7 (amended): on the one-shot path the heartbeat is the first event
of the channel, before all adapter output; on the SDK path the channel
begins with the one adapter status event emitted synchronously inside
the `executeSdk` call (`Connecting`/`Creating session`, starting with
the letter C), and the heartbeat — which starts with the letter S and
so differs from it — comes second, before every asynchronously emitted
adapter event. -/
theorem heartbeat_ordering (name title : List Char) (evs : List ProcEvt) (run : SdkRun) :
    (oneShotTrace name title evs).head? = some (heartbeat name title) ∧
    sdkTrace name run
      = sdkSyncEvent run :: heartbeat name run.taskTitle :: sdkAsyncEvents run ∧
    (sdkSyncEvent run).kind = OutKind.status ∧
    (sdkSyncEvent run).data.head? = some 'C' ∧
    (heartbeat name run.taskTitle).data.head? = some 'S' ∧
    sdkSyncEvent run ≠ heartbeat name run.taskTitle := by
  have hsync : (sdkSyncEvent run).data.head? = some 'C' := by
    unfold sdkSyncEvent
    cases run.clientStarted <;> rfl
  refine ⟨rfl, ?_, ?_, hsync, rfl, ?_⟩
  · rw [sdkTrace_eq_emitted]
    rfl
  · unfold sdkSyncEvent
    cases run.clientStarted <;> rfl
  · intro heq
    rw [heq] at hsync
    have h2 : (heartbeat name run.taskTitle).data.head? = some 'S' := rfl
    rw [h2] at hsync
    simp at hsync

/-- C7 counterexample: for a concrete SDK execution the first delivered
event is the adapter's own `Creating session with model: default...`
status, not the heartbeat, which comes second — the heartbeat does not
precede all adapter-specific output. -/
theorem heartbeat_after_adapter_status :
    (sdkTrace "GitHub Copilot (SDK)".toList plainSdkRun).head? = some (creatingEvt none) ∧
    creatingEvt none ≠ heartbeat "GitHub Copilot (SDK)".toList "Ship it".toList ∧
    ((sdkTrace "GitHub Copilot (SDK)".toList plainSdkRun).drop 1).head?
      = some (heartbeat "GitHub Copilot (SDK)".toList "Ship it".toList) := by
  decide

/-! ## Session sandbox tools

Source: the eleven handlers registered by `defineTools` in
`CopilotSdkAdapter`.  Every handler has the same control skeleton: a
prelude of pure path arithmetic that cannot throw, an unconditional
`tool_start` event, then a `try` block whose effectful body either
returns a `success:true` value after emitting `tool_end`, or is caught,
emits `tool_error`, and returns `{success:false, error}`.  The
effectful body of each handler (filesystem, subprocess or network
calls) is abstracted to its outcome, supplied by the environment as an
`Except`; everything the claim is about — the event protocol and the
never-throwing structured return — is embedded per handler below. -/

/-- The `ToolExecutionEvent.type` discriminants. -/
inductive ToolEvtKind : Type
  | tool_start
  | tool_end
  | tool_error
deriving DecidableEq

/-- Observable outcome of one handler invocation: the tool events it
emitted, in order, and the returned value (`retSuccess` is the
`success` field, `retError` the `error` field; the handler returns in
all cases instead of throwing, which is why this is a total function
of the body outcome). -/
structure ToolCallM : Type where
  events : List ToolEvtKind
  retSuccess : Bool
  retError : Option (List Char)
deriving DecidableEq

/-- Handler skeleton of `edit_file` (body: mkdir + writeFile). -/
def edit_fileCall (body : Except (List Char) Unit) : ToolCallM :=
  match body with
  | Except.ok _ => ⟨[ToolEvtKind.tool_start, ToolEvtKind.tool_end], true, none⟩
  | Except.error m => ⟨[ToolEvtKind.tool_start, ToolEvtKind.tool_error], false, some m⟩

/-- Handler skeleton of `read_file` (body: readFile; a missing file is
a caught rejection). -/
def read_fileCall (body : Except (List Char) Unit) : ToolCallM :=
  match body with
  | Except.ok _ => ⟨[ToolEvtKind.tool_start, ToolEvtKind.tool_end], true, none⟩
  | Except.error m => ⟨[ToolEvtKind.tool_start, ToolEvtKind.tool_error], false, some m⟩

/-- Handler skeleton of `run_command` (body: execAsync with timeout and
10MB buffer cap; a timeout or nonzero exit is a caught rejection whose
stdout/stderr are still returned). -/
def run_commandCall (body : Except (List Char) Unit) : ToolCallM :=
  match body with
  | Except.ok _ => ⟨[ToolEvtKind.tool_start, ToolEvtKind.tool_end], true, none⟩
  | Except.error m => ⟨[ToolEvtKind.tool_start, ToolEvtKind.tool_error], false, some m⟩

/-- Handler skeleton of `list_files` (body: recursive directory
listing). -/
def list_filesCall (body : Except (List Char) Unit) : ToolCallM :=
  match body with
  | Except.ok _ => ⟨[ToolEvtKind.tool_start, ToolEvtKind.tool_end], true, none⟩
  | Except.error m => ⟨[ToolEvtKind.tool_start, ToolEvtKind.tool_error], false, some m⟩

/-- Handler skeleton of `delete_file` (body: unlink; missing file is a
caught rejection). -/
def delete_fileCall (body : Except (List Char) Unit) : ToolCallM :=
  match body with
  | Except.ok _ => ⟨[ToolEvtKind.tool_start, ToolEvtKind.tool_end], true, none⟩
  | Except.error m => ⟨[ToolEvtKind.tool_start, ToolEvtKind.tool_error], false, some m⟩

/-- Handler skeleton of `search_code` (body: ripgrep, with the manual
scan as an inner fallback whose own failures are swallowed per file;
only a failure of the outer block reaches the catch). -/
def search_codeCall (body : Except (List Char) Unit) : ToolCallM :=
  match body with
  | Except.ok _ => ⟨[ToolEvtKind.tool_start, ToolEvtKind.tool_end], true, none⟩
  | Except.error m => ⟨[ToolEvtKind.tool_start, ToolEvtKind.tool_error], false, some m⟩

/-- Handler skeleton of `find_files` (body: recursive listing plus the
glob translation of `globToRegexPattern`; a regex-syntax throw is a
caught failure). -/
def find_filesCall (body : Except (List Char) Unit) : ToolCallM :=
  match body with
  | Except.ok _ => ⟨[ToolEvtKind.tool_start, ToolEvtKind.tool_end], true, none⟩
  | Except.error m => ⟨[ToolEvtKind.tool_start, ToolEvtKind.tool_error], false, some m⟩

/-- Handler skeleton of `apply_patch` (body: read, sequential
first-occurrence replaces, one write; a non-matching edit is recorded
unapplied, not a failure). -/
def apply_patchCall (body : Except (List Char) Unit) : ToolCallM :=
  match body with
  | Except.ok _ => ⟨[ToolEvtKind.tool_start, ToolEvtKind.tool_end], true, none⟩
  | Except.error m => ⟨[ToolEvtKind.tool_start, ToolEvtKind.tool_error], false, some m⟩

/-- Handler skeleton of `collab_web_search` (body: curl to the
DuckDuckGo API plus JSON parsing; any failure returns
`success:false` with empty results). -/
def collab_web_searchCall (body : Except (List Char) Unit) : ToolCallM :=
  match body with
  | Except.ok _ => ⟨[ToolEvtKind.tool_start, ToolEvtKind.tool_end], true, none⟩
  | Except.error m => ⟨[ToolEvtKind.tool_start, ToolEvtKind.tool_error], false, some m⟩

/-- Handler skeleton of `web_fetch` (body: curl, tag stripping and
truncation). -/
def web_fetchCall (body : Except (List Char) Unit) : ToolCallM :=
  match body with
  | Except.ok _ => ⟨[ToolEvtKind.tool_start, ToolEvtKind.tool_end], true, none⟩
  | Except.error m => ⟨[ToolEvtKind.tool_start, ToolEvtKind.tool_error], false, some m⟩

/-- Handler skeleton of `todo_write` (body: mkdir, optional read whose
failure is swallowed by an inner catch, and one write). -/
def todo_writeCall (body : Except (List Char) Unit) : ToolCallM :=
  match body with
  | Except.ok _ => ⟨[ToolEvtKind.tool_start, ToolEvtKind.tool_end], true, none⟩
  | Except.error m => ⟨[ToolEvtKind.tool_start, ToolEvtKind.tool_error], false, some m⟩

/-- The fixed tool registry of `defineTools`, in registration order. -/
inductive SandboxTool : Type
  | edit_file
  | read_file
  | run_command
  | list_files
  | delete_file
  | search_code
  | find_files
  | apply_patch
  | collab_web_search
  | web_fetch
  | todo_write
deriving DecidableEq

/-- Dispatch one invocation of a registry tool to its handler
skeleton. -/
def toolCall : SandboxTool → Except (List Char) Unit → ToolCallM
  | SandboxTool.edit_file => edit_fileCall
  | SandboxTool.read_file => read_fileCall
  | SandboxTool.run_command => run_commandCall
  | SandboxTool.list_files => list_filesCall
  | SandboxTool.delete_file => delete_fileCall
  | SandboxTool.search_code => search_codeCall
  | SandboxTool.find_files => find_filesCall
  | SandboxTool.apply_patch => apply_patchCall
  | SandboxTool.collab_web_search => collab_web_searchCall
  | SandboxTool.web_fetch => web_fetchCall
  | SandboxTool.todo_write => todo_writeCall

/-- C10: for every tool of the session sandbox registry and every body
outcome, the invocation is a total function returning a structured
value (never an exception): on success it emits exactly
`tool_start` then `tool_end` and returns `success:true`; on a failing
body it emits exactly `tool_start` then `tool_error` and returns
`success:false` carrying the error text. -/
theorem sandbox_tool_protocol (tool : SandboxTool) (m : List Char) :
    (toolCall tool (Except.ok ())
       = ⟨[ToolEvtKind.tool_start, ToolEvtKind.tool_end], true, none⟩) ∧
    (toolCall tool (Except.error m)
       = ⟨[ToolEvtKind.tool_start, ToolEvtKind.tool_error], false, some m⟩) := by
  cases tool <;> exact ⟨rfl, rfl⟩

end CollabLearn
